import Mathlib

/-!
Verification development for the nixl backend engines:
the multi-rail libfabric engine (libfabric_backend.cpp, libfabric_rail_manager.h)
and the engine-of-engines UCX backend (ucx_mo_backend.cpp), together with the
UCX endpoint state machine (ucx_utils.cpp).

Each definition is a shallow embedding of the corresponding C++ function;
transport-side outcomes (completion-queue progress results, close results,
blob parses) are passed in as explicit environment values.
-/

namespace Nixl

/-- The `nixl_status_t` return codes used by the backends. -/
inductive NixlStatus where
  | success
  | inProgress
  | invalidParam
  | notFound
  | mismatch
  | notSupported
  | remoteDisconnect
  | cancelledOp
  | backendError
  deriving DecidableEq, Repr

/-! ## Receiver-side notification plane of the multi-rail engine -/

/-- A received binary notification: the sender agent name, the user message,
and the expected XFER_ID manifest (`BinaryNotification` in the libfabric
backend). -/
structure BinaryNotif where
  agent : String
  msg : String
  xferIds : List Nat
  deriving DecidableEq, Repr

/-- Receiver-side state of `nixlLibfabricEngine`: the set of observed data-rail
completions `received_remote_writes_`, the queue `pending_notifications_`, and
the user-visible list `notifMainList_`. -/
structure NotifState where
  received : List Nat
  pending : List BinaryNotif
  mainList : List (String × String)
  deriving DecidableEq, Repr

/-- Engine construction: all three containers start empty. -/
def initialNotifState : NotifState := ⟨[], [], []⟩

/-- `received_remote_writes_.insert(xfer_id)`: set-insert into the receiver's
tracking set (membership is all the code ever queries). -/
def insertXferId (x : Nat) (l : List Nat) : List Nat :=
  if x ∈ l then l else x :: l

/-- `nixlLibfabricEngine::allXferIdsReceived`: every expected XFER_ID is in the
received set. -/
def allXferIdsReceived (expected received : List Nat) : Bool :=
  expected.all (fun i => received.contains i)

/-- `nixlLibfabricEngine::processNotification`, valid-size path: an empty
manifest is delivered immediately; a nonempty manifest is delivered immediately
when already subsumed by the received set, and queued otherwise. -/
def processNotification (s : NotifState) (n : BinaryNotif) : NotifState :=
  if n.xferIds ≠ [] then
    if allXferIdsReceived n.xferIds s.received then
      { s with mainList := s.mainList ++ [(n.agent, n.msg)] }
    else
      { s with pending := s.pending ++ [n] }
  else
    { s with mainList := s.mainList ++ [(n.agent, n.msg)] }

/-- `nixlLibfabricEngine::checkPendingNotifications`: one pass over the pending
queue; entries whose manifests are now subsumed are appended (in queue order)
to the main list and removed from the queue. -/
def checkPendingNotifications (s : NotifState) : NotifState :=
  { s with
    pending := s.pending.filter (fun n => !(allXferIdsReceived n.xferIds s.received)),
    mainList := s.mainList ++
      (s.pending.filter (fun n => allXferIdsReceived n.xferIds s.received)).map
        (fun n => (n.agent, n.msg)) }

/-- `nixlLibfabricEngine::addReceivedXferId`: record the data-rail completion,
then re-scan the pending queue. -/
def addReceivedXferId (s : NotifState) (x : Nat) : NotifState :=
  checkPendingNotifications { s with received := insertXferId x s.received }

/-- The two receiver-side events: a control-rail notification arrival and a
data-rail XFER_ID completion. -/
inductive NotifEvent where
  | recv (n : BinaryNotif)
  | arrive (x : Nat)
  deriving Repr

/-- One receiver-side step. -/
def notifStep (s : NotifState) : NotifEvent → NotifState
  | .recv n => processNotification s n
  | .arrive x => addReceivedXferId s x

/-- Run a trace of receiver-side events from engine construction. -/
def runNotif (events : List NotifEvent) : NotifState :=
  events.foldl notifStep initialNotifState

/-- Queue invariant: no entry of the pending queue is subsumed by the current
received set. -/
def pendingNotSubsumed (s : NotifState) : Prop :=
  ∀ n ∈ s.pending, allXferIdsReceived n.xferIds s.received = false

/-! ## Request handle and transfer path of the multi-rail engine -/

/-- Completion counters of `nixlLibfabricBackendH`: `completed_requests_` and
`total_requests_used_`. -/
structure LfBackendH where
  completed : Nat
  total : Nat
  deriving DecidableEq, Repr

/-- The `nixlLibfabricBackendH` constructor: both counters start at zero. -/
def LfBackendH.fresh : LfBackendH := ⟨0, 0⟩

/-- `nixlLibfabricBackendH::init_request_tracking`. -/
def init_request_tracking (_h : LfBackendH) (numRequests : Nat) : LfBackendH :=
  ⟨0, numRequests⟩

/-- `nixlLibfabricBackendH::adjust_total_requests`. -/
def adjust_total_requests (h : LfBackendH) (actualCount : Nat) : LfBackendH :=
  { h with total := actualCount }

/-- `nixlLibfabricBackendH::is_completed`. -/
def is_completed (h : LfBackendH) : Bool :=
  h.completed == h.total

/-- Outstanding (not yet completed) sub-requests of a handle. -/
def outstandingSubRequests (h : LfBackendH) : Nat :=
  h.total - h.completed

/-- `nixlLibfabricEngine::prepXfer`: looks up the connection for the remote
agent and, when found, allocates a fresh `nixlLibfabricBackendH`; the local and
remote descriptor lists are never examined (their counts are accepted
unchecked). -/
def lfPrepXfer (agentKnown : Bool) (_localCount _remoteCount : Nat) :
    NixlStatus × Option LfBackendH :=
  if agentKnown then (.success, some LfBackendH.fresh)
  else (.notFound, none)

/-- Environment of one `nixlLibfabricEngine::postXfer` call whose submission
loop succeeds: the data-rail count, the user descriptor count, the XFER_ID
count accumulated in the binary notification by the submission loop, the
number of completion callbacks that fired before the final check, whether the
progress thread is enabled, and the status the synchronous
`rail_manager.progressActiveDataRails()` pass returned. -/
structure PostXferRun where
  numDataRails : Nat
  descCount : Nat
  xferIdCount : Nat
  inlineCompleted : Nat
  progressThreadEnabled : Bool
  progressStatus : NixlStatus
  deriving DecidableEq, Repr

/-- Handle state right after `init_request_tracking(desc_count * num_rails)`. -/
def postXferInitHandle (r : PostXferRun) : LfBackendH :=
  init_request_tracking LfBackendH.fresh (r.descCount * r.numDataRails)

/-- Handle state after `adjust_total_requests(xfer_id_count)` and the inline
completion callbacks. -/
def postXferFinalHandle (r : PostXferRun) : LfBackendH :=
  { adjust_total_requests (postXferInitHandle r) r.xferIdCount with
    completed := r.inlineCompleted }

/-- Return value of `nixlLibfabricEngine::postXfer` after a fully successful
submission loop: when the progress thread is disabled and the synchronous
data-rail progress pass reports `NIXL_IN_PROG`, `NIXL_IN_PROG` is returned at
once; otherwise `NIXL_SUCCESS` exactly when the handle is completed. -/
def postXferResult (r : PostXferRun) : NixlStatus :=
  if r.progressThreadEnabled = false ∧ r.progressStatus = NixlStatus.inProgress then
    NixlStatus.inProgress
  else if is_completed (postXferFinalHandle r) then NixlStatus.success
  else NixlStatus.inProgress

/-- `nixlLibfabricEngine::checkXfer`: when the progress thread is disabled, a
failing synchronous progress pass is returned as-is; otherwise the handle's
completion decides between success and in-progress. -/
def lfCheckXfer (h : LfBackendH) (progressThreadEnabled : Bool)
    (progressStatus : NixlStatus) : NixlStatus :=
  if progressThreadEnabled = false ∧ progressStatus ≠ NixlStatus.success ∧
      progressStatus ≠ NixlStatus.inProgress then
    progressStatus
  else if is_completed h then NixlStatus.success
  else NixlStatus.inProgress

/-- `nixlLibfabricEngine::releaseReqH`: a null handle and a live handle are
treated alike — the body only logs and returns success; the second component
lists the transport-level cancel calls performed, and there are none. -/
def lfReleaseReqH (_h : Option LfBackendH) : NixlStatus × List Nat :=
  (.success, [])

/-- `nixlLibfabricEngine::getNotifs`: after the optional synchronous progress
pass (whose status is supplied), the whole internal `notifMainList_` is
appended to the caller's list and the internal list is cleared; the call
returns success when something was delivered and in-progress otherwise.
Result: (status, new engine state, caller's list after the call). -/
def lfGetNotifs (s : NotifState) (callerList : List (String × String))
    (progressThreadEnabled : Bool) (progressStatus : NixlStatus) :
    NixlStatus × NotifState × List (String × String) :=
  if progressThreadEnabled = false ∧ progressStatus ≠ NixlStatus.success ∧
      progressStatus ≠ NixlStatus.inProgress then
    (progressStatus, s, callerList)
  else
    ((if s.mainList.isEmpty then NixlStatus.inProgress else NixlStatus.success),
     { s with mainList := [] },
     callerList ++ s.mainList)

/-! ## Engine-of-engines UCX backend (ucx_mo_backend.cpp) -/

/-- One cell of `nixlUcxMoRequestH::dlMatrix`: whether the cell was populated
by prepXfer and whether its sub-transfer is currently in progress. -/
structure MoElem where
  in_use : Bool
  in_progress : Bool
  deriving DecidableEq, Repr

/-- `nixlUcxMoRequestH`, flattened: the matrix cells plus the deferred
notification fields (`notifNeed`, `notifMsg`, `remoteAgent`). -/
structure MoReq where
  cells : List MoElem
  notifNeed : Bool
  notifMsg : String
  remoteAgent : String
  deriving DecidableEq, Repr

/-- Result of one engine call on a `nixlUcxMoRequestH`: the updated request,
the returned status, and the messages handed to `genNotif` during the call. -/
structure MoCallResult where
  req : MoReq
  status : NixlStatus
  sent : List String
  deriving DecidableEq, Repr

/-- The submission loop of `nixlUcxMoEngine::postXfer` over the matrix cells,
each paired with the status its sub-`postXfer` returned: in-progress cells are
marked, any other non-success status aborts the call. Returns the updated
cells and the `in_progress` flag. -/
def moPostLoop : List (MoElem × NixlStatus) → Except NixlStatus (List MoElem × Bool)
  | [] => .ok ([], false)
  | (c, st) :: rest =>
    if c.in_use then
      if st = NixlStatus.inProgress then
        match moPostLoop rest with
        | .error e => .error e
        | .ok (cs, _) => .ok ({ c with in_progress := true } :: cs, true)
      else if st = NixlStatus.success then
        match moPostLoop rest with
        | .error e => .error e
        | .ok (cs, f) => .ok (c :: cs, f)
      else .error st
    else
      match moPostLoop rest with
      | .error e => .error e
      | .ok (cs, f) => .ok (c :: cs, f)

/-- `nixlUcxMoEngine::postXfer`: run the submission loop; when any sub-transfer
is left in progress, stash the notification on the request (when requested) and
return in-progress without sending anything; only when every sub-transfer
completed inline is the notification sent via `genNotif` (whose status is
environment-supplied). -/
def ucxMoPostXfer (req : MoReq) (subStatus : List NixlStatus) (hasNotif : Bool)
    (msg agent : String) (genStatus : NixlStatus) : MoCallResult :=
  match moPostLoop (req.cells.zip subStatus) with
  | .error e => ⟨req, e, []⟩
  | .ok (cs, inProg) =>
    if inProg then
      ⟨{ cells := cs,
         notifNeed := if hasNotif then true else req.notifNeed,
         notifMsg := if hasNotif then msg else req.notifMsg,
         remoteAgent := if hasNotif then agent else req.remoteAgent },
       .inProgress, []⟩
    else
      if hasNotif then
        if genStatus ≠ NixlStatus.success then ⟨{ req with cells := cs }, genStatus, [msg]⟩
        else ⟨{ req with cells := cs }, .success, [msg]⟩
      else ⟨{ req with cells := cs }, .success, []⟩

/-- The polling loop of `nixlUcxMoEngine::checkXfer` over the matrix cells,
each paired with the status its sub-`checkXfer` returned: completed cells are
unmarked, a still-running cell turns the overall result into in-progress, any
other status aborts. -/
def moCheckLoop : List (MoElem × NixlStatus) → Except NixlStatus (List MoElem × NixlStatus)
  | [] => .ok ([], .success)
  | (c, st) :: rest =>
    if c.in_progress then
      if st = NixlStatus.success then
        match moCheckLoop rest with
        | .error e => .error e
        | .ok (cs, out) => .ok ({ c with in_progress := false } :: cs, out)
      else if st = NixlStatus.inProgress then
        match moCheckLoop rest with
        | .error e => .error e
        | .ok (cs, _) => .ok (c :: cs, .inProgress)
      else .error st
    else
      match moCheckLoop rest with
      | .error e => .error e
      | .ok (cs, out) => .ok (c :: cs, out)

/-- `nixlUcxMoEngine::checkXfer`: run the polling loop; only when it reports
overall success and a notification was deferred is `genNotif` invoked, with the
deferred message. -/
def ucxMoCheckXfer (req : MoReq) (subStatus : List NixlStatus)
    (genStatus : NixlStatus) : MoCallResult :=
  match moCheckLoop (req.cells.zip subStatus) with
  | .error e => ⟨req, e, []⟩
  | .ok (cs, out) =>
    if out = NixlStatus.success ∧ req.notifNeed = true then
      ⟨{ req with cells := cs },
       (if genStatus ≠ NixlStatus.success then genStatus else out), [req.notifMsg]⟩
    else ⟨{ req with cells := cs }, out, []⟩

/-- `nixlUcxMoEngine::releaseReqH`: release every in-use cell through its
sub-engine (each paired with the status that sub-release returned, environment
supplied); failures are remembered but the loop continues. Returns the final
status and the number of sub-engine release calls performed. -/
def ucxMoReleaseReqH (cells : List (MoElem × NixlStatus)) : NixlStatus × Nat :=
  cells.foldl
    (fun acc c =>
      if c.1.in_use then
        ((if c.2 ≠ NixlStatus.success then c.2 else acc.1), acc.2 + 1)
      else acc)
    (.success, 0)

/-- Early validation sequence of `nixlUcxMoEngine::prepXfer`: a descriptor
count mismatch, then an unknown remote agent, each return InvalidParam before
any request is allocated; `rest` is the outcome of the matrix construction
that runs only when the checks pass (second component: a handle was
produced). -/
def ucxMoPrepXfer (localCount remoteCount : Nat) (agentKnown : Bool)
    (rest : NixlStatus × Bool) : NixlStatus × Bool :=
  if localCount ≠ remoteCount then (.invalidParam, false)
  else if agentKnown = false then (.invalidParam, false)
  else rest

/-- `nixlUcxMoEngine::loadRemoteConnInfo`: an agent already present in
`remoteConnMap` is rejected with InvalidParam before anything is parsed or
stored; otherwise the blob parse outcome (environment supplied, yielding the
remote engine count) decides, and on success the record is inserted. -/
def ucxMoLoadRemoteConnInfo (remoteConnMap : List (String × Nat)) (agent : String)
    (parsed : Except NixlStatus Nat) : NixlStatus × List (String × Nat) :=
  if (remoteConnMap.lookup agent).isSome then (.invalidParam, remoteConnMap)
  else
    match parsed with
    | .error e => (e, remoteConnMap)
    | .ok n => (.success, (agent, n) :: remoteConnMap)

/-- Modelled from the spec: `nixlUcxEngine::getNotifs` — the UCX engine's
implementation file (ucx_backend.cpp) is not among the provided sources; per
the spec it drains the backend's pending list into the caller's list and never
suspends. Result: (caller's list after the call, pending list after). -/
def ucxGetNotifs (pendingList callerList : List (String × String)) :
    List (String × String) × List (String × String) :=
  (callerList ++ pendingList, [])

/-- `nixlUcxMoEngine::getNotifs`: delegates to `engines[0]->getNotifs`. -/
def ucxMoGetNotifs (pendingList callerList : List (String × String)) :
    List (String × String) × List (String × String) :=
  ucxGetNotifs pendingList callerList

/-! ## Multi-rail engine construction and striping configuration -/

/-- Modelled from the spec: the value of the
`NIXL_LIBFABRIC_DEFAULT_STRIPING_THRESHOLD` macro (its definition is not among
the provided sources); the spec gives the default as 1 MiB. -/
def defaultStripingThreshold : Nat := 1048576

/-- The two `striping_threshold_` members that exist after engine
construction: the engine's own and the rail manager's. -/
structure LfEngineConfig where
  engineThreshold : Nat
  railManagerThreshold : Nat
  deriving DecidableEq, Repr

/-- The `nixlLibfabricEngine` constructor: the rail manager member is
constructed with the compile-time default threshold in the member-initializer
list; only afterwards does the body parse the `striping_threshold` init
parameter into the engine's own `striping_threshold_` member, which is never
handed to the rail manager. `stripingParam` is the stoull-parsed value of the
parameter: `none` when the parameter is absent or unparsable (the default is
kept), `some v` when a value was supplied and parsed. -/
def lfEngineConstruct (stripingParam : Option Nat) : LfEngineConfig :=
  { engineThreshold :=
      match stripingParam with
      | none => defaultStripingThreshold
      | some v => v,
    railManagerThreshold := defaultStripingThreshold }

/-- Modelled from the spec: `nixlLibfabricRailManager::shouldUseStriping` (its
definition, in libfabric_rail_manager.cpp, is not among the provided sources):
a transfer strictly larger than the rail manager's own `striping_threshold_`
member is striped across the selected rails; all others go whole to one
round-robin rail. -/
def shouldUseStriping (cfg : LfEngineConfig) (transferSize : Nat) : Bool :=
  transferSize > cfg.railManagerThreshold

/-! ## Multi-rail engine connection records -/

/-- `nixlLibfabricConnection`, reduced to what loadRemoteConnInfo stores:
the per-rail endpoint addresses and the agent index. -/
structure LfConn where
  dataEndpoints : List Nat
  controlEndpoints : List Nat
  agentIdx : Nat
  deriving DecidableEq, Repr

/-- `connections_[agent] = conn`: map assignment on an association list. -/
def mapInsert (m : List (String × LfConn)) (k : String) (v : LfConn) :
    List (String × LfConn) :=
  (k, v) :: m.filter (fun p => p.1 ≠ k)

/-- `nixlLibfabricEngine::loadRemoteConnInfo` followed by
`createAgentConnection`: the blob parse outcome is environment supplied (an
empty blob and a failed deserialization both surface as `.error`); there is no
already-loaded check — a well-formed blob whose endpoint lists match the rail
counts always builds a fresh connection record, appends the agent name (again)
to `agent_names_`, and stores the record over any previous one. -/
def lfLoadRemoteConnInfo (connections : List (String × LfConn))
    (agentNames : List String) (agent : String)
    (blob : Except NixlStatus (List Nat × List Nat))
    (numDataRails numControlRails : Nat) :
    NixlStatus × List (String × LfConn) × List String :=
  match blob with
  | .error e => (e, connections, agentNames)
  | .ok (dataEps, ctrlEps) =>
    if dataEps.length ≠ numDataRails then (.invalidParam, connections, agentNames)
    else if ctrlEps.length ≠ numControlRails then (.invalidParam, connections, agentNames)
    else
      let names := agentNames ++ [agent]
      (.success, mapInsert connections agent ⟨dataEps, ctrlEps, names.length - 1⟩, names)

/-! ## UCX endpoint state machine (ucx_utils.cpp) -/

/-- The `nixl_ucx_ep_state_t` values. -/
inductive EpState where
  | epNull
  | connected
  | failed
  | disconnected
  deriving DecidableEq, Repr

/-- Transport-level close calls an endpoint operation can perform. -/
inductive CloseCall where
  | forceClose
  | closeNbx
  deriving DecidableEq, Repr

/-- `nixlUcxEp::err_cb`: a no-op in the NULL, FAILED and DISCONNECTED states;
from CONNECTED it moves the endpoint to FAILED and force-closes it
(`ucp_ep_close_nb(..., UCP_EP_CLOSE_MODE_FORCE)`). -/
def err_cb (s : EpState) : EpState × List CloseCall :=
  match s with
  | .connected => (.failed, [.forceClose])
  | _ => (s, [])

/-- `nixlUcxEp::closeImpl`: NULL and DISCONNECTED return success with nothing
to do; FAILED returns REMOTE_DISCONNECT without any transport close (the
endpoint was already closed by the error callback); CONNECTED performs
`ucp_ep_close_nbx`, whose mapped outcome is environment supplied. The state
member itself is not modified. -/
def closeImpl (s : EpState) (transportClose : NixlStatus) :
    NixlStatus × List CloseCall :=
  match s with
  | .epNull => (.success, [])
  | .disconnected => (.success, [])
  | .failed => (.remoteDisconnect, [])
  | .connected => (transportClose, [.closeNbx])

/-- `nixlUcxEp::disconnect_nb`: `closeImpl` with zero flags, with a resulting
REMOTE_DISCONNECT deliberately converted to success. -/
def disconnect_nb (s : EpState) (transportClose : NixlStatus) :
    NixlStatus × List CloseCall :=
  let r := closeImpl s transportClose
  ((if r.1 = NixlStatus.remoteDisconnect then NixlStatus.success else r.1), r.2)

/-- The state-changing operations on a `nixlUcxEp` after construction. -/
inductive EpOp where
  | errCb
  | closeOp
  | discOp
  deriving DecidableEq, Repr

/-- State component of each endpoint operation: only the error callback ever
changes the state field (`setState` is called nowhere else after the
constructor's NULL → CONNECTED transition). -/
def epNext (s : EpState) : EpOp → EpState
  | .errCb => (err_cb s).1
  | .closeOp => s
  | .discOp => s

/-! ## Lemmas and theorems -/

lemma checkPendingNotifications_inv (s : NotifState) :
    pendingNotSubsumed (checkPendingNotifications s) := by
  intro n hn
  unfold checkPendingNotifications at hn
  simp only [List.mem_filter, Bool.not_eq_true'] at hn
  exact hn.2

lemma notifStep_inv (s : NotifState) (e : NotifEvent) (h : pendingNotSubsumed s) :
    pendingNotSubsumed (notifStep s e) := by
  cases e with
  | recv n =>
    intro m hm
    simp only [notifStep, processNotification] at hm ⊢
    by_cases hne : n.xferIds ≠ []
    · by_cases hall : allXferIdsReceived n.xferIds s.received = true
      · simp only [if_pos hne, if_pos hall] at hm
        rw [if_pos hne, if_pos hall]
        exact h m hm
      · simp only [if_pos hne, if_neg hall, List.mem_append, List.mem_singleton] at hm
        rw [if_pos hne, if_neg hall]
        rcases hm with hm | hm
        · exact h m hm
        · subst hm
          exact Bool.eq_false_iff.mpr hall
    · simp only [if_neg hne] at hm
      rw [if_neg hne]
      exact h m hm
  | arrive x =>
    exact checkPendingNotifications_inv _

lemma runNotif_inv_aux (events : List NotifEvent) (s : NotifState)
    (h : pendingNotSubsumed s) : pendingNotSubsumed (events.foldl notifStep s) := by
  induction events generalizing s with
  | nil => exact h
  | cons e rest ih => exact ih _ (notifStep_inv s e h)

/-- C1: a received notification carrying a nonempty XFER_ID manifest is made
user-visible only once every referenced XFER_ID has been observed at the data
rails: it is delivered immediately when the manifest is already subsumed,
queued otherwise, and a later XFER_ID arrival moves exactly the queued
notifications whose manifests it completes; an empty manifest is delivered
immediately.  In every reachable receiver state no queued manifest is fully
received. -/
theorem notifications_delivered_after_xfer_ids :
    (∀ s n, n.xferIds = [] →
      processNotification s n =
        { s with mainList := s.mainList ++ [(n.agent, n.msg)] }) ∧
    (∀ s n, n.xferIds ≠ [] → allXferIdsReceived n.xferIds s.received = true →
      processNotification s n =
        { s with mainList := s.mainList ++ [(n.agent, n.msg)] }) ∧
    (∀ s n, n.xferIds ≠ [] → allXferIdsReceived n.xferIds s.received = false →
      processNotification s n = { s with pending := s.pending ++ [n] }) ∧
    (∀ s x,
      addReceivedXferId s x =
        { received := insertXferId x s.received,
          pending := s.pending.filter
            (fun n => !(allXferIdsReceived n.xferIds (insertXferId x s.received))),
          mainList := s.mainList ++
            (s.pending.filter
              (fun n => allXferIdsReceived n.xferIds (insertXferId x s.received))).map
              (fun n => (n.agent, n.msg)) }) ∧
    (∀ events, pendingNotSubsumed (runNotif events)) := by
  refine ⟨?_, ?_, ?_, ?_, ?_⟩
  · intro s n hn
    unfold processNotification
    rw [if_neg (by simp [hn])]
  · intro s n hne hall
    unfold processNotification
    rw [if_pos hne, if_pos hall]
  · intro s n hne hall
    unfold processNotification
    rw [if_pos hne, if_neg (by simp [hall])]
  · intro s x
    rfl
  · intro events
    exact runNotif_inv_aux events initialNotifState (by intro n hn; cases hn)

/-- C1 witness: on a concrete trace — a notification expecting XFER_IDs 5 and 7
arrives before either completion — the notification is queued, an unrelated
notification with an empty manifest is delivered at once, and after completion
5 alone arrives the notification is still held and the queue invariant holds. -/
theorem notifications_delivered_after_xfer_ids_witness :
    processNotification initialNotifState ⟨("a"), ("m"), [5, 7]⟩ =
      { initialNotifState with pending := [⟨("a"), ("m"), [5, 7]⟩] } ∧
    processNotification initialNotifState ⟨("b"), ("n"), []⟩ =
      { initialNotifState with mainList := [(("b"), ("n"))] } ∧
    addReceivedXferId { initialNotifState with pending := [⟨("a"), ("m"), [5, 7]⟩] } 5 =
      { received := [5], pending := [⟨("a"), ("m"), [5, 7]⟩], mainList := [] } ∧
    pendingNotSubsumed (runNotif [.recv ⟨("a"), ("m"), [5, 7]⟩, .arrive 5]) := by
  refine ⟨notifications_delivered_after_xfer_ids.2.2.1 _ _ (by decide) (by decide),
          notifications_delivered_after_xfer_ids.1 _ _ rfl,
          ?_, notifications_delivered_after_xfer_ids.2.2.2.2 _⟩
  rw [notifications_delivered_after_xfer_ids.2.2.2.1]
  decide

/-- C2 counterexample: with the progress thread disabled and the synchronous
data-rail progress pass reporting in-progress, postXfer returns InProgress
even though the handle already reports completed == total (here a call with
zero descriptors), so the claimed "returns Success exactly when completed ==
total" fails. -/
theorem postxfer_return_counterexample :
    is_completed (postXferFinalHandle ⟨4, 0, 0, 0, false, .inProgress⟩) = true ∧
    postXferResult ⟨4, 0, 0, 0, false, .inProgress⟩ = NixlStatus.inProgress := by
  decide

/-- C2 amended: the handle's total is initialized to descriptor count times the
data-rail count and then corrected to the accumulated XFER_ID count; postXfer
returns Success exactly when the handle reports completed == total and the
synchronous progress pass (run only with the progress thread disabled) did not
report in-progress, and InProgress otherwise. -/
theorem postxfer_total_tracking (r : PostXferRun) :
    postXferInitHandle r = ⟨0, r.descCount * r.numDataRails⟩ ∧
    (postXferFinalHandle r).total = r.xferIdCount ∧
    (postXferResult r = NixlStatus.success ↔
      (is_completed (postXferFinalHandle r) = true ∧
        ¬(r.progressThreadEnabled = false ∧
          r.progressStatus = NixlStatus.inProgress))) := by
  refine ⟨rfl, rfl, ?_⟩
  unfold postXferResult
  by_cases hp : r.progressThreadEnabled = false ∧ r.progressStatus = NixlStatus.inProgress
  · rw [if_pos hp]
    simp [hp]
  · rw [if_neg hp]
    by_cases hc : is_completed (postXferFinalHandle r) = true
    · simp [hc, hp]
    · simp [hc]

/-- C2 witness: the amended rule at a concrete run — one descriptor over two
rails, two sub-requests posted and both completed inline, progress thread
enabled — postXfer reports Success. -/
theorem postxfer_total_tracking_witness :
    postXferInitHandle ⟨2, 1, 0, 0, true, NixlStatus.success⟩ = ⟨0, 2⟩ ∧
    (postXferFinalHandle ⟨2, 1, 2, 2, true, NixlStatus.success⟩).total = 2 ∧
    postXferResult ⟨2, 1, 2, 2, true, NixlStatus.success⟩ = NixlStatus.success := by
  refine ⟨(postxfer_total_tracking ⟨2, 1, 0, 0, true, NixlStatus.success⟩).1,
          (postxfer_total_tracking ⟨2, 1, 2, 2, true, NixlStatus.success⟩).2.1,
          (postxfer_total_tracking ⟨2, 1, 2, 2, true, NixlStatus.success⟩).2.2.mpr
            ⟨by decide, by decide⟩⟩

/-- C3: the custom `striping_threshold` init parameter is parsed into the
engine's own member but the rail manager — whose `shouldUseStriping` makes the
striping decision — was already constructed with the compile-time default, so
with a configured threshold of 2 MiB a 2 MiB transfer (within the configured
threshold, which the claim says must go whole to one rail) is still striped. -/
theorem striping_threshold_not_propagated :
    (lfEngineConstruct (some 2097152)).engineThreshold = 2097152 ∧
    (lfEngineConstruct (some 2097152)).railManagerThreshold =
      defaultStripingThreshold ∧
    2097152 ≤ (lfEngineConstruct (some 2097152)).engineThreshold ∧
    shouldUseStriping (lfEngineConstruct (some 2097152)) 2097152 = true := by
  refine ⟨rfl, rfl, ?_, ?_⟩ <;> decide

/-- C4: with a known agent, one local and two remote descriptors, the
multi-rail prepXfer returns Success together with a fresh usable handle — it
never compares the descriptor counts — while the engine-of-engines prepXfer
rejects the same mismatch with InvalidParam and produces no handle. -/
theorem prepxfer_count_validation :
    lfPrepXfer true 1 2 = (NixlStatus.success, some LfBackendH.fresh) ∧
    ucxMoPrepXfer 1 2 true (NixlStatus.success, true) =
      (NixlStatus.invalidParam, false) := by
  decide

/-- C5 counterexample: a handle with one outstanding (non-terminal)
sub-request; the multi-rail releaseReqH performs no transport cancel call at
all, refuting "cancels each outstanding sub-request via the transport's cancel
primitive". -/
theorem release_no_cancel_counterexample :
    outstandingSubRequests ⟨0, 1⟩ = 1 ∧
    (lfReleaseReqH (some ⟨0, 1⟩)).2.length ≠ outstandingSubRequests ⟨0, 1⟩ := by
  decide

lemma ucxMoReleaseReqH_aux (cells : List (MoElem × NixlStatus)) (st : NixlStatus)
    (k : Nat) :
    (cells.foldl
      (fun acc c =>
        if c.1.in_use then
          ((if c.2 ≠ NixlStatus.success then c.2 else acc.1), acc.2 + 1)
        else acc)
      (st, k)).2 = k + (cells.filter (fun c => c.1.in_use)).length := by
  induction cells generalizing st k with
  | nil => simp
  | cons c rest ih =>
    by_cases hc : c.1.in_use = true
    · simp only [List.foldl_cons, if_pos hc, List.filter_cons, hc, if_true,
        List.length_cons, ih]
      omega
    · simp only [List.foldl_cons, if_neg hc, List.filter_cons, hc, Bool.false_eq_true,
        if_false, ih]

/-- C5 amended: releaseReqH returns without blocking in both engines — the
multi-rail engine's body returns Success having touched nothing and invoked no
transport cancel, while the engine-of-engines delegates release of exactly the
in-use matrix cells to their sub-engines. -/
theorem release_nonblocking (h : Option LfBackendH)
    (cells : List (MoElem × NixlStatus)) :
    lfReleaseReqH h = (NixlStatus.success, []) ∧
    (ucxMoReleaseReqH cells).2 = (cells.filter (fun c => c.1.in_use)).length := by
  refine ⟨rfl, ?_⟩
  unfold ucxMoReleaseReqH
  rw [ucxMoReleaseReqH_aux]
  omega

/-- C5 witness: the amended behavior at concrete inputs — a handle with one
outstanding sub-request is released with Success and no cancel, and a matrix
with one in-use and one unused cell performs exactly one sub-engine release. -/
theorem release_nonblocking_witness :
    lfReleaseReqH (some ⟨0, 1⟩) = (NixlStatus.success, []) ∧
    (ucxMoReleaseReqH
      [(⟨true, false⟩, NixlStatus.success), (⟨false, false⟩, NixlStatus.success)]).2 = 1 := by
  refine ⟨(release_nonblocking (some ⟨0, 1⟩) []).1, ?_⟩
  rw [(release_nonblocking (some ⟨0, 1⟩)
    [(⟨true, false⟩, NixlStatus.success), (⟨false, false⟩, NixlStatus.success)]).2]
  decide

lemma moPostLoop_flag (zipped : List (MoElem × NixlStatus)) :
    ∀ cs f, moPostLoop zipped = .ok (cs, f) →
      (f = true ↔ ∃ p ∈ zipped, p.1.in_use = true ∧ p.2 = NixlStatus.inProgress) := by
  induction zipped with
  | nil =>
    intro cs f h
    simp only [moPostLoop] at h
    injection h with h1
    injection h1 with hcs hf
    subst hf
    simp
  | cons p rest ih =>
    obtain ⟨c, st⟩ := p
    intro cs f h
    simp only [moPostLoop] at h
    by_cases hc : c.in_use = true
    · rw [if_pos hc] at h
      by_cases hip : st = NixlStatus.inProgress
      · rw [if_pos hip] at h
        cases hr : moPostLoop rest with
        | error e => rw [hr] at h; cases h
        | ok pr =>
          obtain ⟨cs', f'⟩ := pr
          rw [hr] at h
          injection h with h1
          injection h1 with hcs hf
          subst hf
          subst hip
          constructor
          · intro _
            exact ⟨(c, NixlStatus.inProgress), List.mem_cons_self _ _, hc, rfl⟩
          · intro _
            rfl
      · rw [if_neg hip] at h
        by_cases hsu : st = NixlStatus.success
        · rw [if_pos hsu] at h
          cases hr : moPostLoop rest with
          | error e => rw [hr] at h; cases h
          | ok pr =>
            obtain ⟨cs', f'⟩ := pr
            rw [hr] at h
            injection h with h1
            injection h1 with hcs hf
            subst hf
            have hrest := ih cs' f' hr
            constructor
            · intro hf
              obtain ⟨q, hq, hq2⟩ := hrest.mp hf
              exact ⟨q, List.mem_cons_of_mem _ hq, hq2⟩
            · rintro ⟨q, hq, hq2⟩
              rcases List.mem_cons.mp hq with rfl | hq'
              · exact absurd hq2.2 hip
              · exact hrest.mpr ⟨q, hq', hq2⟩
        · rw [if_neg hsu] at h
          cases h
    · rw [if_neg hc] at h
      cases hr : moPostLoop rest with
      | error e => rw [hr] at h; cases h
      | ok pr =>
        obtain ⟨cs', f'⟩ := pr
        rw [hr] at h
        injection h with h1
        injection h1 with hcs hf
        subst hf
        have hrest := ih cs' f' hr
        constructor
        · intro hf
          obtain ⟨q, hq, hq2⟩ := hrest.mp hf
          exact ⟨q, List.mem_cons_of_mem _ hq, hq2⟩
        · rintro ⟨q, hq, hq2⟩
          rcases List.mem_cons.mp hq with rfl | hq'
          · exact absurd hq2.1 hc
          · exact hrest.mpr ⟨q, hq', hq2⟩

lemma moCheckLoop_out (zipped : List (MoElem × NixlStatus)) :
    ∀ cs out, moCheckLoop zipped = .ok (cs, out) →
      (out = NixlStatus.success ↔
        ∀ p ∈ zipped, p.1.in_progress = true → p.2 = NixlStatus.success) := by
  induction zipped with
  | nil =>
    intro cs out h
    simp only [moCheckLoop] at h
    injection h with h1
    injection h1 with hcs hout
    subst hout
    simp
  | cons p rest ih =>
    obtain ⟨c, st⟩ := p
    intro cs out h
    simp only [moCheckLoop] at h
    by_cases hc : c.in_progress = true
    · rw [if_pos hc] at h
      by_cases hsu : st = NixlStatus.success
      · rw [if_pos hsu] at h
        cases hr : moCheckLoop rest with
        | error e => rw [hr] at h; cases h
        | ok pr =>
          obtain ⟨cs', out'⟩ := pr
          rw [hr] at h
          injection h with h1
          injection h1 with hcs hout
          subst hout
          have hrest := ih cs' out' hr
          constructor
          · intro ho q hq hq2
            rcases List.mem_cons.mp hq with rfl | hq'
            · exact hsu
            · exact hrest.mp ho q hq' hq2
          · intro hall
            exact hrest.mpr (fun q hq hq2 => hall q (List.mem_cons_of_mem _ hq) hq2)
      · rw [if_neg hsu] at h
        by_cases hip : st = NixlStatus.inProgress
        · rw [if_pos hip] at h
          cases hr : moCheckLoop rest with
          | error e => rw [hr] at h; cases h
          | ok pr =>
            obtain ⟨cs', out'⟩ := pr
            rw [hr] at h
            injection h with h1
            injection h1 with hcs hout
            subst hout
            constructor
            · intro ho
              cases ho
            · intro hall
              exact absurd (hall (c, st) (List.mem_cons_self _ _) hc) hsu
        · rw [if_neg hip] at h
          cases h
    · rw [if_neg hc] at h
      cases hr : moCheckLoop rest with
      | error e => rw [hr] at h; cases h
      | ok pr =>
        obtain ⟨cs', out'⟩ := pr
        rw [hr] at h
        injection h with h1
        injection h1 with hcs hout
        subst hout
        have hrest := ih cs' out' hr
        constructor
        · intro ho q hq hq2
          rcases List.mem_cons.mp hq with rfl | hq'
          · exact absurd hq2 hc
          · exact hrest.mp ho q hq' hq2
        · intro hall
          exact hrest.mpr (fun q hq hq2 => hall q (List.mem_cons_of_mem _ hq) hq2)

/-- C6: the engine-of-engines never piggybacks a user notification on the data
operations — when the submission loop leaves any sub-transfer in progress,
postXfer sends nothing, returns InProgress and stashes the message on the
handle; only when every sub-transfer completed inline does postXfer send the
notification itself; checkXfer invokes genNotif exactly in calls where the
polling loop reports every previously in-progress sub-transfer complete and a
notification was deferred.  The last two conjuncts characterize the loop
outcomes in terms of the per-cell sub-statuses. -/
theorem ucx_mo_notif_not_piggybacked :
    (∀ req subStatus msg agent genSt cs,
        moPostLoop (req.cells.zip subStatus) = .ok (cs, true) →
        (ucxMoPostXfer req subStatus true msg agent genSt).sent = [] ∧
        (ucxMoPostXfer req subStatus true msg agent genSt).status =
          NixlStatus.inProgress ∧
        (ucxMoPostXfer req subStatus true msg agent genSt).req.notifNeed = true ∧
        (ucxMoPostXfer req subStatus true msg agent genSt).req.notifMsg = msg) ∧
    (∀ req subStatus msg agent cs,
        moPostLoop (req.cells.zip subStatus) = .ok (cs, false) →
        (ucxMoPostXfer req subStatus true msg agent NixlStatus.success).sent =
          [msg] ∧
        (ucxMoPostXfer req subStatus true msg agent NixlStatus.success).status =
          NixlStatus.success) ∧
    (∀ req subStatus genSt,
        (ucxMoCheckXfer req subStatus genSt).sent ≠ [] →
        req.notifNeed = true ∧
        ∃ cs, moCheckLoop (req.cells.zip subStatus) = .ok (cs, NixlStatus.success)) ∧
    (∀ req subStatus genSt cs,
        moCheckLoop (req.cells.zip subStatus) = .ok (cs, NixlStatus.success) →
        req.notifNeed = true →
        (ucxMoCheckXfer req subStatus genSt).sent = [req.notifMsg]) ∧
    (∀ zipped cs f, moPostLoop zipped = .ok (cs, f) →
        (f = true ↔ ∃ p ∈ zipped, p.1.in_use = true ∧ p.2 = NixlStatus.inProgress)) ∧
    (∀ zipped cs out, moCheckLoop zipped = .ok (cs, out) →
        (out = NixlStatus.success ↔
          ∀ p ∈ zipped, p.1.in_progress = true → p.2 = NixlStatus.success)) := by
  refine ⟨?_, ?_, ?_, ?_, ?_, ?_⟩
  · intro req subStatus msg agent genSt cs h
    simp [ucxMoPostXfer, h]
  · intro req subStatus msg agent cs h
    simp [ucxMoPostXfer, h]
  · intro req subStatus genSt hsent
    cases hr : moCheckLoop (req.cells.zip subStatus) with
    | error e =>
      simp only [ucxMoCheckXfer, hr] at hsent
      exact absurd rfl hsent
    | ok pr =>
      obtain ⟨cs, out⟩ := pr
      simp only [ucxMoCheckXfer, hr] at hsent
      by_cases hcond : out = NixlStatus.success ∧ req.notifNeed = true
      · obtain ⟨hout, hneed⟩ := hcond
        subst hout
        exact ⟨hneed, cs, rfl⟩
      · rw [if_neg hcond] at hsent
        simp at hsent
  · intro req subStatus genSt cs h hneed
    simp [ucxMoCheckXfer, h, hneed]
  · exact fun zipped cs f h => moPostLoop_flag zipped cs f h
  · exact fun zipped cs out h => moCheckLoop_out zipped cs out h

/-- C6 witness: with a single in-use cell, a sub-postXfer that returns
InProgress defers the notification (nothing sent, message stashed), a
sub-postXfer that completes inline sends it from postXfer itself, and a later
checkXfer whose sub-checkXfer reports success sends the deferred message. -/
theorem ucx_mo_notif_not_piggybacked_witness :
    (ucxMoPostXfer ⟨[⟨true, false⟩], false, (""), ("")⟩ [NixlStatus.inProgress]
        true ("m") ("peer") NixlStatus.success).sent = [] ∧
    (ucxMoPostXfer ⟨[⟨true, false⟩], false, (""), ("")⟩ [NixlStatus.inProgress]
        true ("m") ("peer") NixlStatus.success).req.notifMsg = ("m") ∧
    (ucxMoPostXfer ⟨[⟨true, false⟩], false, (""), ("")⟩ [NixlStatus.success]
        true ("m") ("peer") NixlStatus.success).sent = [("m")] ∧
    (ucxMoCheckXfer ⟨[⟨true, true⟩], true, ("m"), ("peer")⟩ [NixlStatus.success]
        NixlStatus.success).sent = [("m")] := by
  refine ⟨(ucx_mo_notif_not_piggybacked.1 ⟨[⟨true, false⟩], false, (""), ("")⟩
            [NixlStatus.inProgress] ("m") ("peer") NixlStatus.success
            [⟨true, true⟩] rfl).1,
          (ucx_mo_notif_not_piggybacked.1 ⟨[⟨true, false⟩], false, (""), ("")⟩
            [NixlStatus.inProgress] ("m") ("peer") NixlStatus.success
            [⟨true, true⟩] rfl).2.2.2,
          (ucx_mo_notif_not_piggybacked.2.1 ⟨[⟨true, false⟩], false, (""), ("")⟩
            [NixlStatus.success] ("m") ("peer") [⟨true, false⟩] rfl).1,
          ucx_mo_notif_not_piggybacked.2.2.2.1 ⟨[⟨true, true⟩], true, ("m"), ("peer")⟩
            [NixlStatus.success] NixlStatus.success [⟨true, false⟩] rfl rfl⟩

/-- C7 counterexample: the multi-rail engine's loadRemoteConnInfo, called a
second time for agent "peer" with a valid blob, returns Success (not
InvalidParam) and replaces the previously stored connection record (and
appends the agent name to `agent_names_` a second time). -/
theorem load_conn_reload_counterexample :
    lfLoadRemoteConnInfo [(("peer"), ⟨[10, 11], [20], 0⟩)] [("peer")] ("peer")
        (.ok ([30, 31], [40])) 2 1 =
      (NixlStatus.success,
       [(("peer"), ⟨[30, 31], [40], 1⟩)],
       [("peer"), ("peer")]) ∧
    (lfLoadRemoteConnInfo [(("peer"), ⟨[10, 11], [20], 0⟩)] [("peer")] ("peer")
        (.ok ([30, 31], [40])) 2 1).1 ≠ NixlStatus.invalidParam := by
  decide

/-- C7 amended: only the engine-of-engines backend rejects a repeated
loadRemoteConnInfo for an already-loaded agent with InvalidParam, leaving its
stored map unchanged; the multi-rail engine performs no already-loaded check
and accepts any well-formed blob again, replacing the stored connection record
for that agent and returning Success. -/
theorem load_conn_already_loaded (m : List (String × Nat)) (agent : String)
    (parsed : Except NixlStatus Nat) (hm : (m.lookup agent).isSome = true)
    (conns : List (String × LfConn)) (names : List String) (agent2 : String)
    (dataEps ctrlEps : List Nat) (nd nc : Nat)
    (hd : dataEps.length = nd) (hc : ctrlEps.length = nc) :
    ucxMoLoadRemoteConnInfo m agent parsed = (NixlStatus.invalidParam, m) ∧
    lfLoadRemoteConnInfo conns names agent2 (.ok (dataEps, ctrlEps)) nd nc =
      (NixlStatus.success,
       mapInsert conns agent2 ⟨dataEps, ctrlEps, (names ++ [agent2]).length - 1⟩,
       names ++ [agent2]) := by
  constructor
  · unfold ucxMoLoadRemoteConnInfo
    rw [if_pos hm]
  · unfold lfLoadRemoteConnInfo
    simp [hd, hc]

/-- C7 witness: concrete second-load calls for both engines. -/
theorem load_conn_already_loaded_witness :
    ucxMoLoadRemoteConnInfo [(("peer"), 2)] ("peer") (.ok 2) =
      (NixlStatus.invalidParam, [(("peer"), 2)]) ∧
    lfLoadRemoteConnInfo [] [] ("peer") (.ok ([7], [8])) 1 1 =
      (NixlStatus.success, [(("peer"), ⟨[7], [8], 0⟩)], [("peer")]) := by
  have h := load_conn_already_loaded [(("peer"), 2)] ("peer") (.ok 2) (by decide)
    [] [] ("peer") [7] [8] 1 1 rfl rfl
  exact ⟨h.1, h.2⟩

/-- C8 counterexample: a disconnect attempt (`disconnect_nb`) on an endpoint
already in FAILED reports Success, not RemoteDisconnect — the wrapper
deliberately converts the REMOTE_DISCONNECT from closeImpl. -/
theorem failed_ep_disconnect_counterexample :
    (disconnect_nb EpState.failed NixlStatus.success).1 = NixlStatus.success ∧
    (disconnect_nb EpState.failed NixlStatus.success).1 ≠
      NixlStatus.remoteDisconnect := by
  decide

/-- C8 amended: FAILED is entered only by the error callback and only from
CONNECTED, where the callback also force-closes the endpoint; the callback is
a no-op in every other state; a close attempt (closeImpl) on a FAILED endpoint
performs no transport close and reports RemoteDisconnect, while the disconnect
wrapper performs no transport close either but converts that report to
Success. -/
theorem failed_ep_state_machine :
    (∀ s op, epNext s op = EpState.failed → s ≠ EpState.failed →
      op = EpOp.errCb ∧ s = EpState.connected) ∧
    err_cb EpState.connected = (EpState.failed, [CloseCall.forceClose]) ∧
    (∀ s, s ≠ EpState.connected → err_cb s = (s, [])) ∧
    (∀ t, closeImpl EpState.failed t = (NixlStatus.remoteDisconnect, [])) ∧
    (∀ t, disconnect_nb EpState.failed t = (NixlStatus.success, [])) := by
  refine ⟨?_, rfl, ?_, ?_, ?_⟩
  · intro s op h hs
    cases s <;> cases op <;> simp_all [epNext, err_cb]
  · intro s hs
    cases s <;> simp_all [err_cb]
  · intro t
    rfl
  · intro t
    rfl

/-- C8 witness: the amended state-machine facts at concrete states. -/
theorem failed_ep_state_machine_witness :
    (EpOp.errCb = EpOp.errCb ∧ EpState.connected = EpState.connected) ∧
    err_cb EpState.epNull = (EpState.epNull, []) ∧
    closeImpl EpState.failed NixlStatus.success = (NixlStatus.remoteDisconnect, []) ∧
    disconnect_nb EpState.failed NixlStatus.backendError = (NixlStatus.success, []) :=
  ⟨failed_ep_state_machine.1 EpState.connected EpOp.errCb rfl (by decide),
   failed_ep_state_machine.2.2.1 _ (by decide),
   failed_ep_state_machine.2.2.2.1 _,
   failed_ep_state_machine.2.2.2.2 _⟩

/-- C9: provided the synchronous data-rail progress pass does not fail (it
returned success or in-progress, or the progress thread is enabled), a
getNotifs call on the multi-rail engine appends the whole internal list to the
caller's list and leaves the internal list empty, so an immediately following
call delivers nothing — each notification reaches the user at most once; the
engine-of-engines getNotifs likewise drains its delegate's pending list. -/
theorem getnotifs_drains (s : NotifState) (callerList p : List (String × String))
    (pte : Bool) (ps : NixlStatus)
    (hp : ps = NixlStatus.success ∨ ps = NixlStatus.inProgress ∨ pte = true) :
    (lfGetNotifs s callerList pte ps).2.1.mainList = [] ∧
    (lfGetNotifs s callerList pte ps).2.2 = callerList ++ s.mainList ∧
    (lfGetNotifs (lfGetNotifs s callerList pte ps).2.1 [] pte ps).2.2 = [] ∧
    ucxMoGetNotifs p callerList = (callerList ++ p, []) := by
  have hcond : ¬(pte = false ∧ ps ≠ NixlStatus.success ∧ ps ≠ NixlStatus.inProgress) := by
    rcases hp with h | h | h <;> simp [h]
  refine ⟨?_, ?_, ?_, rfl⟩ <;> simp [lfGetNotifs, hcond]

/-- C9 witness: a concrete drain with one pending notification and the
progress thread enabled. -/
theorem getnotifs_drains_witness :
    (lfGetNotifs ⟨[], [], [(("a"), ("x"))]⟩ [] true NixlStatus.success).2.1.mainList = [] ∧
    (lfGetNotifs ⟨[], [], [(("a"), ("x"))]⟩ [] true NixlStatus.success).2.2 =
      [(("a"), ("x"))] := by
  have h := getnotifs_drains ⟨[], [], [(("a"), ("x"))]⟩ [] [] true NixlStatus.success
    (Or.inl rfl)
  exact ⟨h.1, h.2.1⟩

/-- C10: a handle freshly allocated by the multi-rail prepXfer has both
counters zero, hence reports completed; checkXfer on it returns Success
(provided the synchronous progress pass does not fail) and can never return
InProgress. -/
theorem fresh_handle_check_success (lc rc : Nat) (pte : Bool) (ps : NixlStatus)
    (hp : ps = NixlStatus.success ∨ ps = NixlStatus.inProgress ∨ pte = true) :
    (lfPrepXfer true lc rc).2 = some LfBackendH.fresh ∧
    LfBackendH.fresh.completed = 0 ∧
    LfBackendH.fresh.total = 0 ∧
    is_completed LfBackendH.fresh = true ∧
    lfCheckXfer LfBackendH.fresh pte ps = NixlStatus.success ∧
    (∀ pte2 ps2, lfCheckXfer LfBackendH.fresh pte2 ps2 ≠ NixlStatus.inProgress) := by
  have hcond : ¬(pte = false ∧ ps ≠ NixlStatus.success ∧ ps ≠ NixlStatus.inProgress) := by
    rcases hp with h | h | h <;> simp [h]
  refine ⟨rfl, rfl, rfl, rfl, ?_, ?_⟩
  · unfold lfCheckXfer
    rw [if_neg hcond, if_pos (show is_completed LfBackendH.fresh = true from rfl)]
  · intro pte2 ps2
    unfold lfCheckXfer
    by_cases hcc : pte2 = false ∧ ps2 ≠ NixlStatus.success ∧ ps2 ≠ NixlStatus.inProgress
    · rw [if_pos hcc]
      exact hcc.2.2
    · rw [if_neg hcc]
      decide

/-- C10 witness: a fresh handle polled with the progress thread disabled while
the progress pass reports in-progress still checks as Success. -/
theorem fresh_handle_check_success_witness :
    lfCheckXfer LfBackendH.fresh false NixlStatus.inProgress = NixlStatus.success :=
  (fresh_handle_check_success 1 2 false NixlStatus.inProgress
    (Or.inr (Or.inl rfl))).2.2.2.2.1

end Nixl
